import Mathlib

/-!
Verification development for the kdv drone-footage pipeline.

Part 1 embeds the Timeline Reconstruction Engine of `kdv/extract.py`
(`parse_kdenlive_project`): an XML document model, the producer resolver,
the track walker and the timeline clip builder.

Part 2 embeds the Catalog Store of `kdv/metadata.py` (`load_catalog`,
`save_catalog`, `get_clip_by_name`, `annotate_clip`, `show_catalog_summary`).

Python machine behaviour is modelled as follows: `int(...)` on a string is a
partial function (`pyInt : String -> Option Int`, `none` = `ValueError`);
a raised exception propagating out of a function is `Option.none` on the
whole result; Python float arithmetic on frame rates and durations is
modelled over the rationals; a Python `set` of strings is a `Finset String`;
a JSON dict field that may be absent is an `Option`-wrapped field.
Console rendering (rich tables/panels) carries no data and is not modelled.
-/

/-! ## Part 1: XML document model (xml.etree.ElementTree fragment) -/

mutual
/-- An XML element: tag, attributes (in document order), text content,
child elements (in document order). -/
inductive XmlElem : Type where
  | mk (tag : String) (attrs : List (String × String)) (text : Option String)
      (children : XmlForest) : XmlElem
/-- A sequence of sibling XML elements (isomorphic to `List XmlElem`; a
separate inductive keeps the tree recursion structural). -/
inductive XmlForest : Type where
  | nil : XmlForest
  | cons (e : XmlElem) (rest : XmlForest) : XmlForest
end

/-- Builds a forest from a list of elements. -/
def forestOf : List XmlElem → XmlForest
  | [] => .nil
  | e :: es => .cons e (forestOf es)

/-- The children of a forest, as a list. -/
def XmlForest.toList : XmlForest → List XmlElem
  | .nil => []
  | .cons e rest => e :: rest.toList

/-- Tag name of an element. -/
def XmlElem.tag : XmlElem → String
  | .mk t _ _ _ => t

/-- Attribute list of an element. -/
def XmlElem.attrList : XmlElem → List (String × String)
  | .mk _ a _ _ => a

/-- Text content of an element (`elem.text` in ElementTree; `none` = Python `None`). -/
def XmlElem.textContent : XmlElem → Option String
  | .mk _ _ x _ => x

/-- Direct children of an element, as a list. -/
def XmlElem.childList : XmlElem → List XmlElem
  | .mk _ _ _ c => c.toList

/-- Model of `elem.get(name)`: attribute lookup, `None` when absent. -/
def XmlElem.attr (e : XmlElem) (name : String) : Option String :=
  (e.attrList.find? (fun p => p.1 == name)).map Prod.snd

/-- Model of `elem.get(name, dflt)`: attribute lookup with a default. -/
def XmlElem.attrD (e : XmlElem) (name dflt : String) : String :=
  (e.attr name).getD dflt

mutual
/-- Model of `elem.iter(tag)`: every element of the subtree (the element
itself included) whose tag matches, in document (preorder) order. -/
def XmlElem.iterTag (tag : String) : XmlElem → List XmlElem
  | .mk t a x ch =>
      (if t == tag then [XmlElem.mk t a x ch] else []) ++ XmlForest.iterTag tag ch
/-- Subtree iteration over a forest of siblings, in document order. -/
def XmlForest.iterTag (tag : String) : XmlForest → List XmlElem
  | .nil => []
  | .cons e rest => XmlElem.iterTag tag e ++ XmlForest.iterTag tag rest
end

/-- Model of `elem.findall(tag)`: direct children with the given tag. -/
def XmlElem.findall (e : XmlElem) (tag : String) : List XmlElem :=
  e.childList.filter (fun c => c.tag == tag)

/-- Decimal value of a nonempty all-digit character list. -/
def digitsVal (cs : List Char) : Option Nat :=
  if cs = [] then none
  else if cs.all Char.isDigit then
    some (cs.foldl (fun a c => a * 10 + (c.toNat - 48)) 0)
  else none

/-- Surrounding-whitespace removal on a character list (the stripping
`int(...)` performs on its argument). -/
def pyTrim (cs : List Char) : List Char :=
  ((cs.dropWhile Char.isWhitespace).reverse.dropWhile Char.isWhitespace).reverse

/-- Model of Python `int(s)` on a string: optional surrounding whitespace,
optional sign, decimal digits; `none` models a raised `ValueError`. -/
def pyInt (s : String) : Option Int :=
  match pyTrim s.data with
  | [] => none
  | c :: rest =>
    if c = '-' then (digitsVal rest).map (fun n => -(n : Int))
    else if c = '+' then (digitsVal rest).map (fun n => (n : Int))
    else (digitsVal (c :: rest)).map (fun n => (n : Int))

/-! ## Part 1: timeline model (`kdv/extract.py`) -/

/-- Embeds the `TimelineClip` dataclass of `kdv/extract.py` (source paths as
strings, fps as a rational). -/
structure TimelineClip where
  producer_id : String
  source_path : String
  in_point : Int
  out_point : Int
  duration : Int
  track : String
  position : Int
  fps : ℚ
deriving DecidableEq, Repr

/-- Python dict assignment `d[k] = v`: overwrite the binding when the key is
present (keeping first-insertion order), append otherwise. -/
def dictInsert (d : List (String × String)) (k v : String) : List (String × String) :=
  if d.any (fun p => p.1 == k) then d.map (fun p => if p.1 == k then (k, v) else p)
  else d ++ [(k, v)]

/-- Python dict lookup `d[k]` / `k in d`. -/
def dictFind (d : List (String × String)) (k : String) : Option String :=
  (d.find? (fun p => p.1 == k)).map Prod.snd

/-- Embeds lines 69-77 of `kdv/extract.py`: fps from the first `profile`
element, falling back to 30 on a missing profile, unparsable numbers or a
zero denominator. -/
def parseFps (root : XmlElem) : ℚ :=
  match XmlElem.iterTag "profile" root with
  | [] => 30
  | profile :: _ =>
    match pyInt (profile.attrD "frame_rate_num" "30"),
          pyInt (profile.attrD "frame_rate_den" "1") with
    | some n, some d => if d = 0 then 30 else (n : ℚ) / (d : ℚ)
    | _, _ => 30

/-- Embeds the inner property scan of lines 83-88 of `kdv/extract.py`: the
first property named "resource" decides; its text is recorded unless empty
(falsy) or starting with "black". -/
def producerResource (producer : XmlElem) : Option String :=
  match (producer.findall "property").find? (fun p => p.attr "name" == some "resource") with
  | none => none
  | some prop =>
    match prop.textContent with
    | none => none
    | some r => if r ≠ "" ∧ ¬ ("black".data.isPrefixOf r.data = true) then some r else none

/-- Embeds lines 80-88 of `kdv/extract.py`: the producer map from producer id
to source path over every `producer` element in document order. -/
def buildProducers (root : XmlElem) : List (String × String) :=
  (XmlElem.iterTag "producer" root).foldl
    (fun d producer =>
      match producerResource producer with
      | some r => dictInsert d (producer.attrD "id" "") r
      | none => d) []

/-- Embeds lines 103-105 of `kdv/extract.py`: an entry's producer reference
and its `in`/`out` frames, `int(entry.get(attr, "0"))`; `none` models the
`ValueError` raised on a present but non-numeric attribute. -/
def entryInOut (entry : XmlElem) : Option (String × Int × Int) :=
  match pyInt (entry.attrD "in" "0"), pyInt (entry.attrD "out" "0") with
  | some i, some o => some (entry.attrD "producer" "", i, o)
  | _, _ => none

/-- Embeds the entry loop of lines 101-121 of `kdv/extract.py`: thread the
per-track `position` counter and the global clip accumulator through the
entries of one playlist. -/
def processEntries (producers : List (String × String)) (fps : ℚ) (track_producer : String) :
    List XmlElem → Int → List TimelineClip → Option (Int × List TimelineClip)
  | [], position, clips => some (position, clips)
  | entry :: rest, position, clips =>
    match entryInOut entry with
    | none => none
    | some (prod_ref, in_frame, out_frame) =>
      let clips' :=
        match dictFind producers prod_ref with
        | some src =>
            clips ++ [{ producer_id := prod_ref, source_path := src, in_point := in_frame,
                        out_point := out_frame, duration := out_frame - in_frame + 1,
                        track := track_producer, position := position, fps := fps }]
        | none => clips
      processEntries producers fps track_producer rest
        (position + (out_frame - in_frame + 1)) clips'

/-- Embeds the playlist loop of lines 99-121 of `kdv/extract.py`: every
playlist of the document whose id equals the track's producer reference is
walked (position restarts at 0 for each matching playlist). -/
def processPlaylists (playlists : List XmlElem) (producers : List (String × String)) (fps : ℚ)
    (track_producer : String) (clips : List TimelineClip) : Option (List TimelineClip) :=
  match playlists with
  | [] => some clips
  | pl :: rest =>
    if pl.attr "id" = some track_producer then
      match processEntries producers fps track_producer (pl.findall "entry") 0 clips with
      | none => none
      | some (_, clips') => processPlaylists rest producers fps track_producer clips'
    else processPlaylists rest producers fps track_producer clips

/-- Embeds the track loop of lines 95-121 of `kdv/extract.py` over a given
track list. -/
def processTracks (root : XmlElem) (producers : List (String × String)) (fps : ℚ) :
    List XmlElem → List TimelineClip → Option (List TimelineClip)
  | [], clips => some clips
  | track :: rest, clips =>
    match processPlaylists (XmlElem.iterTag "playlist" root) producers fps
        (track.attrD "producer" "") clips with
    | none => none
    | some clips' => processTracks root producers fps rest clips'

/-- The tracks walked by lines 94-96 of `kdv/extract.py`: `for tractor in
root.iter("tractor"): for track in tractor.findall("track")` — the track
elements of every tractor of the document, concatenated in document order. -/
def allTracks (root : XmlElem) : List XmlElem :=
  (XmlElem.iterTag "tractor" root).flatMap (fun tr => tr.findall "track")

/-- Embeds lines 91-121 of `kdv/extract.py`: the full clip list of the
document. -/
def buildClips (root : XmlElem) (producers : List (String × String)) (fps : ℚ) :
    Option (List TimelineClip) :=
  processTracks root producers fps (allTracks root) []

/-- Embeds the `project_info` dict of lines 123-128 of `kdv/extract.py`
(`sources` is a Python `set`, modelled as a `Finset`). -/
structure ProjectInfo where
  path : String
  fps : ℚ
  total_clips : Nat
  sources : Finset String
deriving DecidableEq

/-- Embeds `parse_kdenlive_project` (lines 63-130 of `kdv/extract.py`),
taking the already-parsed document root; `none` models an uncaught
`ValueError` from an entry's `in`/`out` attribute. -/
def parse_kdenlive_project (project_path : String) (root : XmlElem) :
    Option (ProjectInfo × List TimelineClip) :=
  let fps := parseFps root
  let producers := buildProducers root
  match buildClips root producers fps with
  | none => none
  | some clips =>
    some ({ path := project_path, fps := fps, total_clips := clips.length,
            sources := (producers.map Prod.snd).toFinset }, clips)

/-! ## Part 2: catalog store (`kdv/metadata.py`) -/

/-- Bool-valued substring test on character lists, the semantics of Python's
`needle in hay` on strings. -/
def containsSub (needle : List Char) : List Char → Bool
  | [] => needle.isEmpty
  | c :: t => needle.isPrefixOf (c :: t) || containsSub needle t

/-- Python's `needle in hay` for strings. -/
def strIn (needle hay : String) : Bool :=
  containsSub needle.data hay.data

/-- Python's `s.lower()`, as a character list. -/
def lowerChars (s : String) : List Char :=
  s.data.map Char.toLower

/-- Embeds a catalog entry dict of `kdv/metadata.py`: the technical fields the
Catalog Store reads, plus the `ANNOTATION_FIELDS`. An `Option`-wrapped field
with value `none` models a key absent from the dict; `rating`, `motion_type`
and `vibe` additionally admit the Python value `None` (the inner `Option`).
Tag lists go through `list(set(...))`, so the tag field is a `Finset`. -/
structure CatalogEntry where
  filename : String
  duration_seconds : Option ℚ
  size_bytes : Option Int
  tags : Option (Finset String)
  rating : Option (Option Int)
  notes : Option String
  motion_type : Option (Option String)
  vibe : Option (Option String)
  usable : Option Bool
  used_in : Option (List String)
deriving DecidableEq

/-- The catalog file on disk (`<thumbnails>/catalog.json`): `none` when the
file does not exist. -/
structure CatalogFile where
  contents : Option (List CatalogEntry)
deriving DecidableEq

/-- Embeds `load_catalog` (lines 226-232 of `kdv/metadata.py`): a missing
catalog file yields the empty list. -/
def load_catalog (file : CatalogFile) : List CatalogEntry :=
  file.contents.getD []

/-- Embeds `save_catalog` (lines 235-240 of `kdv/metadata.py`): wholesale
overwrite of the catalog file. -/
def save_catalog (catalog : List CatalogEntry) (_file : CatalogFile) : CatalogFile :=
  { contents := some catalog }

/-- The match test of `get_clip_by_name`: case-insensitive substring match of
the needle against the entry's filename. -/
def matchesName (name : String) (clip : CatalogEntry) : Bool :=
  containsSub (lowerChars name) (lowerChars clip.filename)

/-- Embeds `get_clip_by_name` (lines 243-249 of `kdv/metadata.py`): first
entry whose filename contains the needle, case-insensitively. -/
def get_clip_by_name (catalog : List CatalogEntry) (name : String) : Option CatalogEntry :=
  catalog.find? (matchesName name)

/-- Embeds the lazy-init loop of lines 274-277 of `kdv/metadata.py`: every
annotation field absent from the entry is set to its `ANNOTATION_FIELDS`
default. -/
def ensureFields (c : CatalogEntry) : CatalogEntry :=
  { c with
    tags := some (c.tags.getD ∅),
    rating := some (c.rating.getD none),
    notes := some (c.notes.getD ""),
    motion_type := some (c.motion_type.getD none),
    vibe := some (c.vibe.getD none),
    usable := some (c.usable.getD true),
    used_in := some (c.used_in.getD []) }

/-- Embeds the field updates of lines 279-291 of `kdv/metadata.py` applied to
the located entry, after the lazy init: tags are unioned, rating is clamped
to [1,5], the other scalars are replaced. -/
def patchClip (tags : Option (List String)) (rating : Option Int) (notes : Option String)
    (motion_type : Option String) (vibe : Option String) (usable : Option Bool)
    (c0 : CatalogEntry) : CatalogEntry :=
  let c1 := ensureFields c0
  let c2 := match tags with
    | some ts => { c1 with tags := some ((c1.tags.getD ∅) ∪ ts.toFinset) }
    | none => c1
  let c3 := match rating with
    | some r => { c2 with rating := some (some (max 1 (min 5 r))) }
    | none => c2
  let c4 := match notes with
    | some n => { c3 with notes := some n }
    | none => c3
  let c5 := match motion_type with
    | some m => { c4 with motion_type := some (some m) }
    | none => c4
  let c6 := match vibe with
    | some v => { c5 with vibe := some (some v) }
    | none => c5
  match usable with
  | some u => { c6 with usable := some u }
  | none => c6

/-- In-place mutation of the first list element satisfying the test, the
effect of mutating the dict returned by `get_clip_by_name` inside the loaded
catalog list. -/
def updateFirst (p : CatalogEntry → Bool) (f : CatalogEntry → CatalogEntry) :
    List CatalogEntry → List CatalogEntry
  | [] => []
  | x :: xs => if p x then f x :: xs else x :: updateFirst p f xs

/-- Embeds `annotate_clip` (lines 252-295 of `kdv/metadata.py`): load the
catalog, find the clip by name; on a miss return `False` without writing; on
a hit patch the found entry in place and save the catalog, returning `True`. -/
def annotate_clip (clip_name : String) (tags : Option (List String)) (rating : Option Int)
    (notes : Option String) (motion_type : Option String) (vibe : Option String)
    (usable : Option Bool) (file : CatalogFile) : Bool × CatalogFile :=
  let catalog := load_catalog file
  match get_clip_by_name catalog clip_name with
  | none => (false, file)
  | some _ =>
      (true, save_catalog
        (updateFirst (matchesName clip_name)
          (patchClip tags rating notes motion_type vibe usable) catalog) file)

/-- Python truthiness of `c.get("rating")`: present, not `None`, nonzero. -/
def ratingTruthy (c : CatalogEntry) : Bool :=
  match c.rating with
  | some (some r) => r != 0
  | _ => false

/-- Python truthiness of `c.get("tags")`: present and nonempty. -/
def tagsTruthy (c : CatalogEntry) : Bool :=
  match c.tags with
  | some s => decide (s ≠ ∅)
  | none => false

/-- Python truthiness of `c.get("motion_type")`: present, not `None`, nonempty. -/
def motionTruthy (c : CatalogEntry) : Bool :=
  match c.motion_type with
  | some (some m) => m != ""
  | _ => false

/-- Python truthiness of `c.get("vibe")`: present, not `None`, nonempty. -/
def vibeTruthy (c : CatalogEntry) : Bool :=
  match c.vibe with
  | some (some v) => v != ""
  | _ => false

/-- The statistics computed by `show_catalog_summary` on a nonempty catalog
(lines 307-348 of `kdv/metadata.py`); the `pct_` fields are the percentage
columns of the status table. -/
structure CatalogStats where
  total_clips : Nat
  total_duration : ℚ
  total_size : Int
  converted : Nat
  originals : Nat
  rated : Nat
  tagged : Nat
  with_motion : Nat
  with_vibe : Nat
  unusable : Nat
  pct_originals : ℚ
  pct_converted : ℚ
  pct_rated : ℚ
  pct_tagged : ℚ
  pct_motion : ℚ
  pct_vibe : ℚ

/-- Outcome of `show_catalog_summary`: either the early-return "Catalog is
empty" message (lines 302-304 of `kdv/metadata.py`) or the computed
statistics. -/
inductive SummaryResult where
  | empty_catalog
  | stats (s : CatalogStats)

/-- Embeds `show_catalog_summary` (lines 298-348 of `kdv/metadata.py`): on an
empty catalog report emptiness and return before any statistic (in
particular before any division by `total_clips`); otherwise compute the
counts and percentage columns. Tag-cloud and top-rated rendering carry no
further computation on `total_clips` and are not modelled. -/
def show_catalog_summary (file : CatalogFile) : SummaryResult :=
  let catalog := load_catalog file
  if catalog = [] then .empty_catalog
  else
    let total_clips := catalog.length
    let converted := catalog.countP (fun c => strIn "-30fps" c.filename)
    let originals := total_clips - converted
    let rated := catalog.countP ratingTruthy
    let tagged := catalog.countP tagsTruthy
    let with_motion := catalog.countP motionTruthy
    let with_vibe := catalog.countP vibeTruthy
    let unusable := catalog.countP (fun c => c.usable == some false)
    .stats
      { total_clips := total_clips,
        total_duration := (catalog.map (fun c => c.duration_seconds.getD 0)).sum,
        total_size := (catalog.map (fun c => c.size_bytes.getD 0)).sum,
        converted := converted, originals := originals, rated := rated,
        tagged := tagged, with_motion := with_motion, with_vibe := with_vibe,
        unusable := unusable,
        pct_originals := (originals : ℚ) / (total_clips : ℚ) * 100,
        pct_converted := (converted : ℚ) / (total_clips : ℚ) * 100,
        pct_rated := (rated : ℚ) / (total_clips : ℚ) * 100,
        pct_tagged := (tagged : ℚ) / (total_clips : ℚ) * 100,
        pct_motion := (with_motion : ℚ) / (total_clips : ℚ) * 100,
        pct_vibe := (with_vibe : ℚ) / (total_clips : ℚ) * 100 }

/-! ## Characterization helpers for the entry loop -/

/-- Duration value `out - in + 1` of a decoded entry triple. -/
def entryDur (t : String × Int × Int) : Int := t.2.2 - t.2.1 + 1

/-- The running positions at which successive entries of a clip-list start:
the start position, then the start position plus the first duration, and so
on (one value per entry, resolved or not). -/
def prefixPositions (pos : Int) : List Int → List Int
  | [] => []
  | d :: ds => pos :: prefixPositions (pos + d) ds

/-- The clip (if any) emitted for a decoded entry at a given position:
`some` exactly when the producer reference resolves in the producer map. -/
def emitAt (producers : List (String × String)) (fps : ℚ) (track_producer : String)
    (t : String × Int × Int) (pos : Int) : Option TimelineClip :=
  (dictFind producers t.1).map (fun src =>
    { producer_id := t.1, source_path := src, in_point := t.2.1, out_point := t.2.2,
      duration := entryDur t, track := track_producer, position := pos, fps := fps })

/-- Option-valued map over a list (all-or-nothing). -/
def mapOpt {α β : Type} (f : α → Option β) : List α → Option (List β)
  | [] => some []
  | a :: as =>
    match f a, mapOpt f as with
    | some b, some bs => some (b :: bs)
    | _, _ => none

/-- Source paths of a clip list. -/
def sourcePathsOf (clips : List TimelineClip) : List String :=
  clips.map TimelineClip.source_path

/-- Timeline positions of a clip list. -/
def positionsOf (clips : List TimelineClip) : List Int :=
  clips.map TimelineClip.position

/-- Durations of a clip list. -/
def durationsOf (clips : List TimelineClip) : List Int :=
  clips.map TimelineClip.duration

/-- Track references of a clip list. -/
def tracksOf (clips : List TimelineClip) : List String :=
  clips.map TimelineClip.track

/-- The clip list of a parse result. -/
def clipsOf (r : Option (ProjectInfo × List TimelineClip)) : Option (List TimelineClip) :=
  r.map Prod.snd

/-! ## Concrete documents for the end-to-end scenarios -/

/-- The E2E scenario A document: fps 30 (the default taken when no profile
element is present), producers p1 and p2, one track whose clip-list
"playlist0" has the two entries (p1, 0, 89) and (p2, 10, 39). -/
def docA : XmlElem :=
  .mk "mlt" [] none (forestOf
    [ .mk "producer" [("id", "p1")] none (forestOf
        [ .mk "property" [("name", "resource")] (some "/a.mp4") (forestOf []) ])
    , .mk "producer" [("id", "p2")] none (forestOf
        [ .mk "property" [("name", "resource")] (some "/b.mp4") (forestOf []) ])
    , .mk "playlist" [("id", "playlist0")] none (forestOf
        [ .mk "entry" [("producer", "p1"), ("in", "0"), ("out", "89")] none (forestOf [])
        , .mk "entry" [("producer", "p2"), ("in", "10"), ("out", "39")] none (forestOf []) ])
    , .mk "tractor" [("id", "tractor0")] none (forestOf
        [ .mk "track" [("id", "track1"), ("producer", "playlist0")] none (forestOf []) ]) ])

/-- A document whose first clip-list entry has an inverted frame range
(in 5, out 0), giving durationFrames -4 for an emitted clip. -/
def docNeg : XmlElem :=
  .mk "mlt" [] none (forestOf
    [ .mk "producer" [("id", "p1")] none (forestOf
        [ .mk "property" [("name", "resource")] (some "/a.mp4") (forestOf []) ])
    , .mk "playlist" [("id", "playlist0")] none (forestOf
        [ .mk "entry" [("producer", "p1"), ("in", "5"), ("out", "0")] none (forestOf [])
        , .mk "entry" [("producer", "p1"), ("in", "0"), ("out", "0")] none (forestOf []) ])
    , .mk "tractor" [] none (forestOf
        [ .mk "track" [("producer", "playlist0")] none (forestOf []) ]) ])

/-- A document with two sequencer (tractor) elements: the first declares no
tracks, the second declares the only track, backed by clip-list "playlist1". -/
def docTwo : XmlElem :=
  .mk "mlt" [] none (forestOf
    [ .mk "producer" [("id", "p2")] none (forestOf
        [ .mk "property" [("name", "resource")] (some "/b.mp4") (forestOf []) ])
    , .mk "playlist" [("id", "playlist1")] none (forestOf
        [ .mk "entry" [("producer", "p2"), ("in", "0"), ("out", "9")] none (forestOf []) ])
    , .mk "tractor" [("id", "tractor0")] none (forestOf [])
    , .mk "tractor" [("id", "tractor1")] none (forestOf
        [ .mk "track" [("producer", "playlist1")] none (forestOf []) ]) ])

/-- A document whose only clip-list entry carries the non-numeric attribute
in="x". -/
def docBadIn : XmlElem :=
  .mk "mlt" [] none (forestOf
    [ .mk "producer" [("id", "p1")] none (forestOf
        [ .mk "property" [("name", "resource")] (some "/a.mp4") (forestOf []) ])
    , .mk "playlist" [("id", "playlist0")] none (forestOf
        [ .mk "entry" [("producer", "p1"), ("in", "x"), ("out", "5")] none (forestOf []) ])
    , .mk "tractor" [] none (forestOf
        [ .mk "track" [("producer", "playlist0")] none (forestOf []) ]) ])
/-- The scenario-A clip-list entries, standalone (as fed to the entry loop). -/
def entriesA : List XmlElem :=
  [ .mk "entry" [("producer", "p1"), ("in", "0"), ("out", "89")] none (forestOf [])
  , .mk "entry" [("producer", "p2"), ("in", "10"), ("out", "39")] none (forestOf []) ]

/-- The scenario-A producer map, standalone. -/
def producersA : List (String × String) := [("p1", "/a.mp4"), ("p2", "/b.mp4")]

/-- The first clip expected from scenario A. -/
def clipA1 : TimelineClip :=
  { producer_id := "p1", source_path := "/a.mp4", in_point := 0, out_point := 89,
    duration := 90, track := "playlist0", position := 0, fps := 30 }

/-- The second clip expected from scenario A. -/
def clipA2 : TimelineClip :=
  { producer_id := "p2", source_path := "/b.mp4", in_point := 10, out_point := 39,
    duration := 30, track := "playlist0", position := 90, fps := 30 }

/-- The clip list the entry loop emits for the scenario-A entries. -/
def processedA : List TimelineClip := [clipA1, clipA2]

/-- Number of declared tracks per tractor element, in document order. -/
def tractorTrackCounts (root : XmlElem) : List Nat :=
  (XmlElem.iterTag "tractor" root).map (fun t => (t.findall "track").length)

/-- A catalog entry carrying only its filename (every annotation field and
optional technical field absent, as for a freshly probed legacy entry). -/
def baseEntry (name : String) : CatalogEntry :=
  { filename := name, duration_seconds := none, size_bytes := none, tags := none,
    rating := none, notes := none, motion_type := none, vibe := none, usable := none,
    used_in := none }

/-! ## Lemmas about the entry loop -/

/-- The stateful entry loop, characterized without state: decoding failure of
any entry fails the loop; otherwise the final position is the start position
plus the sum of the durations of all entries, and the emitted clips are the
resolvable entries paired with the running positions over all entries. -/
theorem processEntries_eq (producers : List (String × String)) (fps : ℚ)
    (track_producer : String) :
    ∀ (entries : List XmlElem) (pos : Int) (clips : List TimelineClip),
    processEntries producers fps track_producer entries pos clips =
      (mapOpt entryInOut entries).map (fun ios =>
        (pos + (ios.map entryDur).sum,
         clips ++ (ios.zip (prefixPositions pos (ios.map entryDur))).filterMap
           (fun q => emitAt producers fps track_producer q.1 q.2))) := by
  intro entries
  induction entries with
  | nil => intro pos clips; simp [processEntries, mapOpt]
  | cons e rest ih =>
    intro pos clips
    rw [processEntries, mapOpt]
    cases h : entryInOut e with
    | none => simp
    | some t =>
      obtain ⟨r, i, o⟩ := t
      dsimp only
      rw [ih]
      cases hm : mapOpt entryInOut rest with
      | none => simp
      | some ios =>
        simp only [Option.map_some, List.map_cons, prefixPositions, List.zip_cons_cons,
          List.filterMap_cons, List.sum_cons]
        cases hd : dictFind producers r with
        | none =>
          refine congrArg some (Prod.ext ?_ ?_)
          · simp [entryDur]; omega
          · simp [prefixPositions, List.filterMap_cons, emitAt, hd, entryDur]
        | some src =>
          refine congrArg some (Prod.ext ?_ ?_)
          · simp [entryDur]; omega
          · simp [prefixPositions, List.filterMap_cons, emitAt, hd, entryDur]

/-- The positions of the clips emitted from a decoded entry list form a
sublist of the running positions over all entries. -/
theorem emitted_positions_sublist (producers : List (String × String)) (fps : ℚ)
    (track_producer : String) :
    ∀ (ios : List (String × Int × Int)) (pos : Int),
    (((ios.zip (prefixPositions pos (ios.map entryDur))).filterMap
        (fun q => emitAt producers fps track_producer q.1 q.2)).map
      TimelineClip.position).Sublist (prefixPositions pos (ios.map entryDur)) := by
  intro ios
  induction ios with
  | nil => intro pos; simp [prefixPositions]
  | cons t rest ih =>
    intro pos
    simp only [List.map_cons, prefixPositions, List.zip_cons_cons, List.filterMap_cons]
    cases hd : dictFind producers t.1 with
    | none =>
      simp only [emitAt, hd, Option.map_none]
      exact (ih (pos + entryDur t)).cons _
    | some src =>
      simp only [emitAt, hd, Option.map_some, List.map_cons, TimelineClip.position]
      exact (ih (pos + entryDur t)).cons₂ _

/-- Every running position is bounded below by the start position when all
durations are nonnegative. -/
theorem prefixPositions_le (ds : List Int) :
    ∀ (pos : Int), (∀ d ∈ ds, 0 ≤ d) → ∀ x ∈ prefixPositions pos ds, pos ≤ x := by
  induction ds with
  | nil => intro pos _ x hx; simp [prefixPositions] at hx
  | cons d ds ih =>
    intro pos h x hx
    simp only [prefixPositions, List.mem_cons] at hx
    rcases hx with rfl | hx
    · exact le_refl x
    · have hx' := ih (pos + d) (fun d' hd' => h d' (List.mem_cons_of_mem _ hd')) x hx
      have hd0 : 0 ≤ d := h d (List.mem_cons_self _ _)
      omega

/-- The running positions are pairwise nondecreasing when all durations are
nonnegative. -/
theorem prefixPositions_pairwise (ds : List Int) :
    ∀ (pos : Int), (∀ d ∈ ds, 0 ≤ d) →
    (prefixPositions pos ds).Pairwise (fun a b => a ≤ b) := by
  induction ds with
  | nil => intro pos _; simp [prefixPositions]
  | cons d ds ih =>
    intro pos h
    have hd0 : 0 ≤ d := h d (List.mem_cons_self _ _)
    have hrest : ∀ d' ∈ ds, (0 : Int) ≤ d' := fun d' hd' => h d' (List.mem_cons_of_mem _ hd')
    simp only [prefixPositions]
    refine List.Pairwise.cons ?_ (ih (pos + d) hrest)
    intro x hx
    have := prefixPositions_le ds (pos + d) hrest x hx
    omega

/-- The per-clip duration formula of the timeline clip builder. -/
def durFormula (c : TimelineClip) : Prop :=
  c.duration = c.out_point - c.in_point + 1

/-- The entry loop only appends clips satisfying the duration formula. -/
theorem processEntries_durFormula (P : List (String × String)) (fps : ℚ) (tp : String)
    (entries : List XmlElem) (pos : Int) (clips : List TimelineClip)
    (pos' : Int) (clips' : List TimelineClip)
    (h : processEntries P fps tp entries pos clips = some (pos', clips'))
    (hc : ∀ c ∈ clips, durFormula c) : ∀ c ∈ clips', durFormula c := by
  rw [processEntries_eq] at h
  cases hm : mapOpt entryInOut entries with
  | none => rw [hm] at h; cases h
  | some ios =>
    rw [hm] at h
    simp only [Option.map_some', Option.some.injEq, Prod.mk.injEq] at h
    obtain ⟨-, h2⟩ := h
    intro c hcmem
    rw [← h2] at hcmem
    rcases List.mem_append.mp hcmem with h1 | hfm
    · exact hc c h1
    · obtain ⟨q, _, hfq⟩ := List.mem_filterMap.mp hfm
      obtain ⟨src, -, rfl⟩ := Option.map_eq_some.mp hfq
      simp [durFormula, entryDur]

/-- The playlist loop only appends clips satisfying the duration formula. -/
theorem processPlaylists_durFormula :
    ∀ (playlists : List XmlElem) (P : List (String × String)) (fps : ℚ) (tp : String)
      (clips clips' : List TimelineClip),
    processPlaylists playlists P fps tp clips = some clips' →
    (∀ c ∈ clips, durFormula c) → ∀ c ∈ clips', durFormula c := by
  intro playlists
  induction playlists with
  | nil =>
    intro P fps tp clips clips' h hc
    simp only [processPlaylists, Option.some_inj] at h
    exact h ▸ hc
  | cons pl rest ih =>
    intro P fps tp clips clips' h hc
    rw [processPlaylists] at h
    by_cases hid : pl.attr "id" = some tp
    · rw [if_pos hid] at h
      cases hpe : processEntries P fps tp (pl.findall "entry") 0 clips with
      | none => rw [hpe] at h; cases h
      | some res =>
        obtain ⟨p1, cl1⟩ := res
        rw [hpe] at h
        exact ih P fps tp cl1 clips' h
          (processEntries_durFormula P fps tp (pl.findall "entry") 0 clips p1 cl1 hpe hc)
    · rw [if_neg hid] at h
      exact ih P fps tp clips clips' h hc

/-- The track loop only appends clips satisfying the duration formula. -/
theorem processTracks_durFormula :
    ∀ (tracks : List XmlElem) (root : XmlElem) (P : List (String × String)) (fps : ℚ)
      (clips clips' : List TimelineClip),
    processTracks root P fps tracks clips = some clips' →
    (∀ c ∈ clips, durFormula c) → ∀ c ∈ clips', durFormula c := by
  intro tracks
  induction tracks with
  | nil =>
    intro root P fps clips clips' h hc
    simp only [processTracks, Option.some_inj] at h
    exact h ▸ hc
  | cons track rest ih =>
    intro root P fps clips clips' h hc
    rw [processTracks] at h
    cases hpl : processPlaylists (XmlElem.iterTag "playlist" root) P fps
        (track.attrD "producer" "") clips with
    | none => rw [hpl] at h; cases h
    | some cl1 =>
      rw [hpl] at h
      exact ih root P fps cl1 clips' h
        (processPlaylists_durFormula (XmlElem.iterTag "playlist" root) P fps
          (track.attrD "producer" "") clips cl1 hpl hc)

/-- Processing a concatenation of track lists processes the first part, then
the second part from the first part's accumulated clips. -/
theorem processTracks_append (root : XmlElem) (P : List (String × String)) (fps : ℚ) :
    ∀ (ts1 ts2 : List XmlElem) (acc : List TimelineClip),
    processTracks root P fps (ts1 ++ ts2) acc =
      (processTracks root P fps ts1 acc).bind
        (fun acc1 => processTracks root P fps ts2 acc1) := by
  intro ts1
  induction ts1 with
  | nil => intro ts2 acc; simp [processTracks]
  | cons t ts ih =>
    intro ts2 acc
    rw [List.cons_append, processTracks, processTracks]
    cases h : processPlaylists (XmlElem.iterTag "playlist" root) P fps
        (t.attrD "producer" "") acc with
    | none => simp
    | some acc' => simp [ih]

/-- Locating the first match splits the list, and updating in place rewrites
exactly that occurrence. -/
theorem find?_updateFirst_split (p : CatalogEntry → Bool) (f : CatalogEntry → CatalogEntry) :
    ∀ (l : List CatalogEntry) (c : CatalogEntry), l.find? p = some c →
    ∃ pre post, l = pre ++ c :: post ∧ (∀ x ∈ pre, p x = false) ∧ p c = true ∧
      updateFirst p f l = pre ++ f c :: post := by
  intro l
  induction l with
  | nil => intro c h; simp at h
  | cons x xs ih =>
    intro c h
    by_cases hx : p x = true
    · rw [List.find?_cons_of_pos _ hx] at h
      obtain rfl : x = c := by injection h
      exact ⟨[], xs, by simp, by simp, hx, by simp [updateFirst, hx]⟩
    · have hx' : p x = false := by simpa using hx
      rw [List.find?_cons_of_neg _ (by simp [hx'])] at h
      obtain ⟨pre, post, hl, hpre, hc, hupd⟩ := ih c h
      refine ⟨x :: pre, post, by simp [hl], ?_, hc, by simp [updateFirst, hx', hupd]⟩
      intro y hy
      rcases List.mem_cons.mp hy with rfl | hy'
      · exact hx'
      · exact hpre y hy'

/-- The empty needle is a substring of every haystack. -/
theorem containsSub_nil (hay : List Char) : containsSub [] hay = true := by
  cases hay <;> simp [containsSub, List.isPrefixOf]

/-! ## Claim theorems -/

/-- C1: for a project document with fps 30, one track "track1" whose
clip-list "playlist0" contains the entries (p1, in 0, out 89) and
(p2, in 10, out 39), and producers p1 -> /a.mp4, p2 -> /b.mp4,
`parse_kdenlive_project` returns exactly two timeline clips in order:
/a.mp4 at position 0 with 90 frames, then /b.mp4 at position 90 with
30 frames. -/
theorem scenarioA_parse_result :
    parse_kdenlive_project "project.kdenlive" docA =
      some ({ path := "project.kdenlive", fps := 30, total_clips := 2,
              sources := (["/a.mp4", "/b.mp4"] : List String).toFinset },
            [ { producer_id := "p1", source_path := "/a.mp4", in_point := 0, out_point := 89,
                duration := 90, track := "playlist0", position := 0, fps := 30 },
              { producer_id := "p2", source_path := "/b.mp4", in_point := 10, out_point := 39,
                duration := 30, track := "playlist0", position := 90, fps := 30 } ]) := by
  decide

/-- C2 (amended): when the entry loop of the clip builder succeeds on a
track's clip-list, the position counter is advanced unconditionally for
every entry — the final counter is the start position plus the sum of
`out - in + 1` over all entries, resolved or not — and each emitted clip's
position is the prefix sum of the durations of all preceding entries of
that clip-list; the emitted position sequence is non-decreasing whenever
every entry duration is nonnegative, but can decrease after an entry with
an inverted frame range. -/
theorem track_positions_prefix_sum (producers : List (String × String)) (fps : ℚ)
    (track_producer : String) (entries : List XmlElem) (pos pos' : Int)
    (clips' : List TimelineClip)
    (h : processEntries producers fps track_producer entries pos [] = some (pos', clips')) :
    ∃ ios, mapOpt entryInOut entries = some ios ∧
      pos' = pos + (ios.map entryDur).sum ∧
      clips' = (ios.zip (prefixPositions pos (ios.map entryDur))).filterMap
        (fun q => emitAt producers fps track_producer q.1 q.2) ∧
      ((∀ d ∈ ios.map entryDur, 0 ≤ d) →
        (positionsOf clips').Pairwise (fun a b => a ≤ b)) := by
  rw [processEntries_eq] at h
  cases hm : mapOpt entryInOut entries with
  | none => rw [hm] at h; cases h
  | some ios =>
    rw [hm] at h
    simp only [Option.map_some', Option.some.injEq, Prod.mk.injEq] at h
    obtain ⟨h1, h2⟩ := h
    refine ⟨ios, rfl, h1.symm, ?_, ?_⟩
    · rw [← h2]; simp
    · intro hd
      have hsub := emitted_positions_sublist producers fps track_producer ios pos
      have hpw := prefixPositions_pairwise (ios.map entryDur) pos hd
      rw [← h2]
      simpa [positionsOf] using hpw.sublist hsub

/-- Witness for the amended C2 theorem at the scenario-A entries: start
position 0, final position 120, two clips at positions 0 and 90. -/
theorem track_positions_prefix_sum_witness :
    ∃ ios, mapOpt entryInOut entriesA = some ios ∧
      (120 : Int) = 0 + (ios.map entryDur).sum ∧
      processedA = (ios.zip (prefixPositions 0 (ios.map entryDur))).filterMap
        (fun q => emitAt producersA 30 "playlist0" q.1 q.2) ∧
      ((∀ d ∈ ios.map entryDur, 0 ≤ d) →
        (positionsOf processedA).Pairwise (fun a b => a ≤ b)) :=
  track_positions_prefix_sum producersA 30 "playlist0" entriesA 0 120 processedA (by decide)

/-- C2 is refuted as stated: on `docNeg` (first entry in 5, out 0) the two
emitted clips of track "playlist0" sit at positions 0 and then -4 — the
emitted position sequence is not non-decreasing. -/
theorem track_positions_counterexample :
    (clipsOf (parse_kdenlive_project "proj" docNeg)).map positionsOf = some [0, -4] ∧
    ¬ (([0, -4] : List Int).Pairwise (fun a b => a ≤ b)) := by
  constructor
  · decide
  · intro hp
    have := (List.pairwise_cons.mp hp).1 (-4) (List.mem_singleton.mpr rfl)
    omega

/-- C3 (amended): every timeline clip emitted by `parse_kdenlive_project`
satisfies durationFrames = outPoint - inPoint + 1; the value is not
guaranteed nonnegative — it is negative whenever outPoint < inPoint - 1,
and such clips are still emitted. -/
theorem clip_duration_formula (path : String) (root : XmlElem)
    (info : ProjectInfo) (clips : List TimelineClip)
    (h : parse_kdenlive_project path root = some (info, clips)) :
    ∀ c ∈ clips, c.duration = c.out_point - c.in_point + 1 := by
  simp only [parse_kdenlive_project] at h
  cases hb : buildClips root (buildProducers root) (parseFps root) with
  | none => rw [hb] at h; cases h
  | some cl =>
    rw [hb] at h
    simp only [Option.some.injEq, Prod.mk.injEq] at h
    obtain ⟨-, rfl⟩ := h
    intro c hc
    exact processTracks_durFormula (allTracks root) root (buildProducers root) (parseFps root)
      [] cl hb (by simp) c hc

/-- Witness for the amended C3 theorem: the first scenario-A clip, emitted by
parsing `docA`, satisfies the duration formula. -/
theorem clip_duration_formula_witness :
    clipA1.duration = clipA1.out_point - clipA1.in_point + 1 :=
  clip_duration_formula "project.kdenlive" docA
    { path := "project.kdenlive", fps := 30, total_clips := 2,
      sources := (["/a.mp4", "/b.mp4"] : List String).toFinset }
    processedA (by decide) clipA1 (by decide)

/-- C3 is refuted as stated: parsing `docNeg` emits a clip of duration -4
(in 5, out 0), so durationFrames of an emitted clip can be negative. -/
theorem clip_duration_counterexample :
    (clipsOf (parse_kdenlive_project "proj" docNeg)).map durationsOf = some [-4, 1] ∧
    (-4 : Int) < 0 := by
  constructor
  · decide
  · omega

/-- C4 (amended): the track walker iterates the declared track references of
every sequencer (tractor) element of the document, in document order —
`buildClips` runs the walker over the concatenation of all tractors' track
lists, and processing a concatenated track list feeds the clips accumulated
from the earlier tracks into the later ones, so tracks under subsequent
sequencer elements contribute their clips after those of earlier ones. -/
theorem all_tractors_walked (root : XmlElem) (producers : List (String × String)) (fps : ℚ)
    (ts1 ts2 : List XmlElem) (acc : List TimelineClip) :
    buildClips root producers fps = processTracks root producers fps (allTracks root) [] ∧
    allTracks root = (XmlElem.iterTag "tractor" root).flatMap (fun tr => tr.findall "track") ∧
    processTracks root producers fps (ts1 ++ ts2) acc =
      (processTracks root producers fps ts1 acc).bind
        (fun acc1 => processTracks root producers fps ts2 acc1) :=
  ⟨rfl, rfl, processTracks_append root producers fps ts1 ts2 acc⟩

/-- C4 is refuted as stated: in `docTwo` the first tractor declares no tracks
and the second declares one, yet the parse emits a clip whose track
reference "playlist1" is the one declared under the second tractor — a
subsequent sequencer's tracks do contribute clips. -/
theorem second_tractor_contributes_counterexample :
    tractorTrackCounts docTwo = [0, 1] ∧
    (clipsOf (parse_kdenlive_project "proj" docTwo)).map tracksOf = some ["playlist1"] := by
  decide

/-- C5 (amended): a clip-list entry's in/out frame values default to 0 when
the corresponding attribute is absent; a present but non-numeric value is
not defaulted — it raises ValueError (modelled as `none`), so entry
processing can fail on a bad in/out attribute. -/
theorem in_out_default_absent (e : XmlElem)
    (h1 : e.attr "in" = none) (h2 : e.attr "out" = none) :
    entryInOut e = some (e.attrD "producer" "", 0, 0) := by
  have h0 : pyInt "0" = some 0 := by decide
  simp [entryInOut, XmlElem.attrD, h1, h2, h0]

/-- Witness for the amended C5 theorem: an entry element with no in/out
attributes decodes to frames (0, 0). -/
theorem in_out_default_absent_witness :
    entryInOut (XmlElem.mk "entry" [("producer", "p9")] none XmlForest.nil) =
      some ("p9", 0, 0) := by
  rw [in_out_default_absent (XmlElem.mk "entry" [("producer", "p9")] none XmlForest.nil)
    (by decide) (by decide)]
  decide

/-- C5 is refuted as stated: an entry with the non-numeric attribute in="x"
is not defaulted to 0 — decoding the entry fails, and parsing `docBadIn`
(whose only entry it is) aborts with ValueError instead of succeeding. -/
theorem bad_in_aborts_counterexample :
    entryInOut (XmlElem.mk "entry" [("producer", "p1"), ("in", "x"), ("out", "5")] none
      XmlForest.nil) = none ∧
    parse_kdenlive_project "proj" docBadIn = none := by
  decide

/-- C6: a successful `annotate_clip` with a rating in the patch stores the
rating clamped to [1,5] on the located entry — max(1, min(5, r)), a value
between 1 and 5 — and in particular a patch of 7 stores 5 and a patch of
-3 stores 1. -/
theorem rating_clamped (file : CatalogFile) (name : String) (r : Int) (file' : CatalogFile)
    (h : annotate_clip name none (some r) none none none none file = (true, file')) :
    ∃ pre e post,
      load_catalog file = pre ++ e :: post ∧
      (∀ x ∈ pre, matchesName name x = false) ∧ matchesName name e = true ∧
      file'.contents = some (pre ++ patchClip none (some r) none none none none e :: post) ∧
      (patchClip none (some r) none none none none e).rating =
        some (some (max 1 (min 5 r))) ∧
      1 ≤ max 1 (min 5 r) ∧ max 1 (min 5 r) ≤ 5 ∧
      (patchClip none (some 7) none none none none e).rating = some (some 5) ∧
      (patchClip none (some (-3)) none none none none e).rating = some (some 1) := by
  rw [annotate_clip] at h
  cases hg : get_clip_by_name (load_catalog file) name with
  | none => rw [hg] at h; cases h
  | some e0 =>
    rw [hg] at h
    obtain ⟨-, rfl⟩ : True ∧ save_catalog (updateFirst (matchesName name)
        (patchClip none (some r) none none none none) (load_catalog file)) file = file' := by
      constructor
      · trivial
      · injection h with h1 h2
    obtain ⟨pre, post, hl, hpre, he, hupd⟩ :=
      find?_updateFirst_split (matchesName name)
        (patchClip none (some r) none none none none) (load_catalog file) e0 hg
    refine ⟨pre, e0, post, hl, hpre, he, ?_, ?_, ?_, ?_, ?_, ?_⟩
    · simp [save_catalog, hupd]
    · simp [patchClip, ensureFields]
    · omega
    · omega
    · simp [patchClip, ensureFields]
    · simp [patchClip, ensureFields]

/-- Witness for C6 at a one-entry catalog and rating patch 7: the located
entry is the single entry, the stored rating is clamped to 5 and the
clamped value of 7 is between 1 and 5. -/
theorem rating_clamped_witness :
    ∃ pre e post,
      load_catalog { contents := some [baseEntry "clip1.mp4"] } = pre ++ e :: post ∧
      (∀ x ∈ pre, matchesName "clip" x = false) ∧ matchesName "clip" e = true ∧
      ({ contents := some [patchClip none (some 7) none none none none
          (baseEntry "clip1.mp4")] } : CatalogFile).contents =
        some (pre ++ patchClip none (some 7) none none none none e :: post) ∧
      (patchClip none (some 7) none none none none e).rating =
        some (some (max 1 (min 5 7))) ∧
      1 ≤ max 1 (min 5 (7 : Int)) ∧ max 1 (min 5 (7 : Int)) ≤ 5 ∧
      (patchClip none (some 7) none none none none e).rating = some (some 5) ∧
      (patchClip none (some (-3)) none none none none e).rating = some (some 1) :=
  rating_clamped { contents := some [baseEntry "clip1.mp4"] } "clip" 7
    { contents := some [patchClip none (some 7) none none none none
        (baseEntry "clip1.mp4")] } (by decide)

/-- C7: a tag patch applied by `annotate_clip` to an entry unions the patch
tags with the entry's existing tag set rather than replacing it, and
applying the same tag patch twice yields the same tag set as applying it
once. -/
theorem tags_union_idempotent (c : CatalogEntry) (ts : List String) :
    (patchClip (some ts) none none none none none c).tags =
      some ((c.tags.getD ∅) ∪ ts.toFinset) ∧
    (patchClip (some ts) none none none none none
        (patchClip (some ts) none none none none none c)).tags =
      (patchClip (some ts) none none none none none c).tags := by
  constructor
  · simp [patchClip, ensureFields]
  · simp [patchClip, ensureFields, Finset.union_assoc, Finset.union_self]

/-- C8: loading the catalog when no catalog file exists returns the empty
list, and `annotate_clip` on any filename then fails — reported to the
caller as the EntryNotFoundError outcome (the clip-not-found `False`
return) — with the catalog file left unwritten. -/
theorem missing_catalog_load_and_annotate (clip_name : String) (tags : Option (List String))
    (rating : Option Int) (notes : Option String) (motion_type vibe : Option String)
    (usable : Option Bool) :
    load_catalog { contents := none } = [] ∧
    annotate_clip clip_name tags rating notes motion_type vibe usable { contents := none } =
      (false, { contents := none }) := by
  refine ⟨rfl, ?_⟩
  simp [annotate_clip, load_catalog, get_clip_by_name]

/-- C9: the catalog aggregate on an empty catalog (missing file or an empty
entry list) reports the empty-catalog outcome and returns before computing
any statistics, so no percentage is ever divided by the zero clip count. -/
theorem empty_catalog_summary :
    show_catalog_summary { contents := none } = SummaryResult.empty_catalog ∧
    show_catalog_summary { contents := some [] } = SummaryResult.empty_catalog :=
  ⟨rfl, rfl⟩

/-- C10: with the empty string as needle, `get_clip_by_name` returns the
first entry of any non-empty catalog (the empty string is a substring of
every filename) and `none` on the empty catalog; consequently
`annotate_clip` with an empty clip name patches the catalog's first entry. -/
theorem empty_needle_first_entry (e : CatalogEntry) (rest : List CatalogEntry)
    (tags : Option (List String)) (rating : Option Int) (notes : Option String)
    (motion_type vibe : Option String) (usable : Option Bool) :
    get_clip_by_name ([] : List CatalogEntry) "" = none ∧
    get_clip_by_name (e :: rest) "" = some e ∧
    annotate_clip "" tags rating notes motion_type vibe usable
        (CatalogFile.mk (some (e :: rest))) =
      (true, CatalogFile.mk
        (some (patchClip tags rating notes motion_type vibe usable e :: rest))) := by
  have h0 : lowerChars "" = [] := rfl
  have hm : matchesName "" e = true := by
    rw [matchesName, h0]; exact containsSub_nil _
  refine ⟨rfl, ?_, ?_⟩
  · rw [get_clip_by_name, List.find?_cons_of_pos _ hm]
  · rw [annotate_clip]
    have hg : get_clip_by_name (load_catalog { contents := some (e :: rest) }) "" = some e := by
      rw [load_catalog]
      simpa [get_clip_by_name] using List.find?_cons_of_pos rest hm
    rw [hg]
    simp [save_catalog, updateFirst, hm, load_catalog]
